import Mathlib

/-!
Shallow embedding of the weather-dashboard frontend of `furyhawk/home_stack`.

The TypeScript sources embedded here are:
  * `frontend/src/client/core/ApiError.ts` (the `ApiError` class),
  * `frontend/src/client/services/weatherHub.ts` (the `WeatherHub` class),
  * `frontend/src/client/services/enhancedWeatherService.ts`
    (`EnhancedWeatherService.filterForecastsByArea`),
  * the weather-utils module (`categorizeWeatherForecast`, `mergeLocationData`,
    `filterForecastsByArea`, `getUniqueAreas`, `getMostCommonForecast`,
    `getForecastsByCategory`, `calculateWeatherStatistics`),
  * `frontend/src/components/weather/WindDirection.tsx` (circular mean of wind
    directions and `getCardinalDirection`).

JavaScript numbers are modelled as real numbers (`ℝ`) where trigonometry is
involved and as `ℤ`/`ℚ`/`ℕ` elsewhere; JS `%` on numbers is the truncated
remainder (`jsfmod` on `ℝ`, `Int.tmod` on `ℤ`); `Math.round` rounds half away
toward positive infinity, which is Mathlib's `round`; `undefined`/`null` are
modelled with `Option`; JS `Array.prototype.sort` (a stable sort) is modelled
with `List.insertionSort`, which is stable; the insertion-order iteration of a
JS `Set` / plain-object keys is modelled explicitly (`setDedup`, `bump`).
Impure `timestamp: new Date().toISOString()` fields are omitted from result
records: no claim mentions them.
-/

/-! ## Basic data model (DTOs mirrored from the upstream API types) -/

/-- A two-hour-forecast item: an area name and its forecast text. -/
structure Forecast where
  area : String
  forecast : String
deriving DecidableEq, Repr

/-- Coordinates of an area label (`label_location` in the API payload). -/
structure LabelLocation where
  latitude : ℚ
  longitude : ℚ
deriving DecidableEq, Repr

/-- Area metadata: an area name together with its label location. -/
structure AreaMetadata where
  name : String
  label_location : LabelLocation
deriving DecidableEq, Repr

/-- A forecast extended with the optional `location` field
(`ForecastWithLocation extends Forecast` in the TypeScript source). -/
structure ForecastWithLocation where
  toForecast : Forecast
  location : Option LabelLocation
deriving DecidableEq, Repr

/-! ## WeatherHub list utilities (`weatherHub.ts`) -/

namespace WeatherHub

/-- Embedding of `WeatherHub.filterByArea`:
`if (!area || area === "All Areas") return forecasts;
 return forecasts.filter(f => f.area === area)`. -/
def filterByArea (forecasts : List Forecast) (area : String) : List Forecast :=
  if area = "" ∨ area = "All Areas" then forecasts
  else forecasts.filter (fun forecast => forecast.area == area)

/-- Embedding of `WeatherHub.mergeLocationData` (textually identical to the
weather-utils `mergeLocationData`): for each forecast, find the first metadata
entry with a matching name and attach its `label_location` as `location`. -/
def mergeLocationData (forecasts : List Forecast)
    (areaMetadata : List AreaMetadata) : List ForecastWithLocation :=
  forecasts.map (fun forecast =>
    let metadata := areaMetadata.find? (fun area => area.name == forecast.area)
    { toForecast := forecast
      location := metadata.map (fun m => m.label_location) })

end WeatherHub

namespace WeatherUtils

/-- Embedding of the weather-utils `filterForecastsByArea`
(same body as `WeatherHub.filterByArea`). -/
def filterForecastsByArea (forecasts : List Forecast) (area : String) :
    List Forecast :=
  if area = "" ∨ area = "All Areas" then forecasts
  else forecasts.filter (fun forecast => forecast.area == area)

end WeatherUtils

namespace EnhancedWeatherService

/-- Embedding of `EnhancedWeatherService.filterForecastsByArea`:
`if (area === "All Areas") return forecasts;
 return forecasts.filter(forecast => forecast.area === area)`.
Unlike the other two filters it has no `!area` (empty-string) early return. -/
def filterForecastsByArea (forecasts : List Forecast) (area : String) :
    List Forecast :=
  if area = "All Areas" then forecasts
  else forecasts.filter (fun forecast => forecast.area == area)

end EnhancedWeatherService

/-! ## Claims C5, C6, C8 -/

/-- C5: `WeatherHub.filterByArea` returns the input list itself when the area
argument is empty or `"All Areas"`; otherwise the result is a sublist of the
input (elements unmodified, original order) containing exactly those forecasts
whose `area` field equals the argument. -/
theorem c5_filterByArea_spec (forecasts : List Forecast) (area : String) :
    ((area = "" ∨ area = "All Areas") →
      WeatherHub.filterByArea forecasts area = forecasts) ∧
    (¬(area = "" ∨ area = "All Areas") →
      List.Sublist (WeatherHub.filterByArea forecasts area) forecasts ∧
      ∀ f : Forecast,
        f ∈ WeatherHub.filterByArea forecasts area ↔
          f ∈ forecasts ∧ f.area = area) := by
  constructor
  · intro h
    simp [WeatherHub.filterByArea, h]
  · intro h
    rw [WeatherHub.filterByArea, if_neg h]
    refine ⟨List.filter_sublist _, ?_⟩
    intro f
    simp [List.mem_filter]

/-- C5 witness: concrete instantiation of both branches of
`c5_filterByArea_spec`. -/
theorem c5_filterByArea_spec_witness :
    ("All Areas" = "" ∨ "All Areas" = "All Areas") ∧
    WeatherHub.filterByArea [⟨"Bedok", "Cloudy"⟩] "All Areas" =
      [⟨"Bedok", "Cloudy"⟩] ∧
    ¬(("Bedok" : String) = "" ∨ ("Bedok" : String) = "All Areas") ∧
    (⟨"Bedok", "Cloudy"⟩ ∈ WeatherHub.filterByArea [⟨"Bedok", "Cloudy"⟩] "Bedok" ↔
      (⟨"Bedok", "Cloudy"⟩ : Forecast) ∈ [(⟨"Bedok", "Cloudy"⟩ : Forecast)] ∧
        (⟨"Bedok", "Cloudy"⟩ : Forecast).area = "Bedok") :=
  ⟨Or.inr rfl,
   (c5_filterByArea_spec [⟨"Bedok", "Cloudy"⟩] "All Areas").1 (Or.inr rfl),
   by decide,
   ((c5_filterByArea_spec [⟨"Bedok", "Cloudy"⟩] "Bedok").2 (by decide)).2
     ⟨"Bedok", "Cloudy"⟩⟩

/-- C6: `mergeLocationData` preserves length and order, each output element
carries the corresponding input forecast unchanged, and its `location` is the
`label_location` of the first metadata entry whose `name` equals the
forecast's `area` (or `none` when no entry matches). -/
theorem c6_mergeLocationData_spec (forecasts : List Forecast)
    (areaMetadata : List AreaMetadata) :
    (WeatherHub.mergeLocationData forecasts areaMetadata).length =
      forecasts.length ∧
    ∀ i : ℕ, ∀ h : i < forecasts.length,
      ((WeatherHub.mergeLocationData forecasts areaMetadata).get
          ⟨i, by simpa [WeatherHub.mergeLocationData] using h⟩).toForecast =
        forecasts.get ⟨i, h⟩ ∧
      ((WeatherHub.mergeLocationData forecasts areaMetadata).get
          ⟨i, by simpa [WeatherHub.mergeLocationData] using h⟩).location =
        (areaMetadata.find?
            (fun area => area.name == (forecasts.get ⟨i, h⟩).area)).map
          (fun m => m.label_location) := by
  refine ⟨by simp [WeatherHub.mergeLocationData], ?_⟩
  intro i h
  simp [WeatherHub.mergeLocationData]

/-- C6 witness: concrete instantiation of `c6_mergeLocationData_spec` at a
one-element forecast list and matching metadata. -/
theorem c6_mergeLocationData_spec_witness :
    (0 : ℕ) < [(⟨"Bedok", "Cloudy"⟩ : Forecast)].length ∧
    ((WeatherHub.mergeLocationData [⟨"Bedok", "Cloudy"⟩]
        [⟨"Bedok", ⟨14, 103⟩⟩]).get ⟨0, by decide⟩).toForecast =
      (⟨"Bedok", "Cloudy"⟩ : Forecast) :=
  ⟨by decide,
   by
    have h :=
      (c6_mergeLocationData_spec [⟨"Bedok", "Cloudy"⟩]
        [⟨"Bedok", ⟨14, 103⟩⟩]).2 0 (by decide)
    exact h.1⟩

/-- C8 counterexample: with the single forecast `⟨"Bedok", "Cloudy"⟩` and the
empty area string, `WeatherHub.filterByArea` returns the input list while
`EnhancedWeatherService.filterForecastsByArea` filters it to `[]`: the three
filtering helpers do not always return the same list. -/
theorem c8_filter_equivalence_cex :
    WeatherHub.filterByArea [⟨"Bedok", "Cloudy"⟩] "" ≠
      EnhancedWeatherService.filterForecastsByArea [⟨"Bedok", "Cloudy"⟩] "" := by
  decide

/-- C8 (amended): `WeatherHub.filterByArea` and the weather-utils
`filterForecastsByArea` agree on every input, and both agree with
`EnhancedWeatherService.filterForecastsByArea` whenever the area string is
non-empty. -/
theorem c8_filter_equivalence_amended (forecasts : List Forecast)
    (area : String) :
    WeatherHub.filterByArea forecasts area =
      WeatherUtils.filterForecastsByArea forecasts area ∧
    (area ≠ "" →
      WeatherHub.filterByArea forecasts area =
        EnhancedWeatherService.filterForecastsByArea forecasts area) := by
  refine ⟨rfl, ?_⟩
  intro h
  by_cases hall : area = "All Areas"
  · simp [WeatherHub.filterByArea, EnhancedWeatherService.filterForecastsByArea,
      hall]
  · rw [WeatherHub.filterByArea, EnhancedWeatherService.filterForecastsByArea,
      if_neg (by tauto), if_neg hall]

/-- C8 witness: concrete instantiation of `c8_filter_equivalence_amended` at a
non-empty area string. -/
theorem c8_filter_equivalence_amended_witness :
    ("Bedok" : String) ≠ "" ∧
    WeatherHub.filterByArea [⟨"Bedok", "Cloudy"⟩] "Bedok" =
      EnhancedWeatherService.filterForecastsByArea [⟨"Bedok", "Cloudy"⟩]
        "Bedok" :=
  ⟨by decide,
   (c8_filter_equivalence_amended [⟨"Bedok", "Cloudy"⟩] "Bedok").2 (by decide)⟩

/-! ## ApiError (`ApiError.ts`) and claim C3 -/

/-- JS `String.prototype.toLowerCase`, modelled character by character over
the string's character list. -/
def jsToLower (s : String) : String :=
  String.mk (s.data.map Char.toLower)

/-- Boolean substring test: `hay.includes(needle)` on JS strings, modelled as
list-infix containment over the characters. -/
def hasSub (needle hay : String) : Bool :=
  decide (needle.toList <:+: hay.toList)

/-- Test for the phrase checked by `ApiError`:
`s.toLowerCase().includes('no data available')`. -/
def hasNoDataPhrase (s : String) : Bool :=
  hasSub "no data available" (jsToLower s)

/-- Model of the JavaScript `data?: any` constructor argument of `ApiError`,
restricted to the shapes its truthiness tests can distinguish: absent
(`undefined`/`null`), a string, an object with an optional string `message`
field, or any other truthy / falsy value. A non-string `message` behaves like
an absent one for the final outcome, so `Option String` covers it. -/
inductive ApiData where
  | undef
  | str (s : String)
  | obj (message : Option String)
  | otherTruthy
  | otherFalsy
deriving DecidableEq, Repr

/-- Embedding of the `isNoDataAvailable` computation in the `ApiError`
constructor: truthiness of
`status === 404 ||
 (statusText && statusText.toLowerCase().includes('no data available')) ||
 (data && typeof data === 'string' && data.toLowerCase().includes(...)) ||
 (data && data.message && typeof data.message === 'string' &&
  data.message.toLowerCase().includes(...))`. -/
def ApiError.isNoDataAvailable (status : ℤ) (statusText : String)
    (data : ApiData) : Bool :=
  (status == 404) ||
  (statusText != "" && hasNoDataPhrase statusText) ||
  (match data with
   | .str s => s != "" && hasNoDataPhrase s
   | _ => false) ||
  (match data with
   | .obj (some m) => m != "" && hasNoDataPhrase m
   | _ => false)

/-- A string containing the phrase is necessarily non-empty, so the truthiness
guards in the `ApiError` disjunction are redundant. -/
theorem ne_empty_of_hasNoDataPhrase {s : String}
    (h : hasNoDataPhrase s = true) : s ≠ "" := by
  intro hs
  subst hs
  have hfalse : hasNoDataPhrase "" = false := by decide
  rw [hfalse] at h
  exact Bool.false_ne_true h

/-- The truthiness guard `s && s.includes(...)` collapses to the `includes`
test alone, because the phrase is non-empty. -/
theorem textClause_iff (s : String) :
    (s != "" && hasNoDataPhrase s) = true ↔ hasNoDataPhrase s = true := by
  rw [Bool.and_eq_true, bne_iff_ne]
  exact ⟨fun h => h.2, fun h => ⟨ne_empty_of_hasNoDataPhrase h, h⟩⟩

/-- C3: `ApiError.isNoDataAvailable` is truthy exactly when the status is 404,
or the status text contains "no data available" ignoring case, or the data is
a string containing that phrase, or the data has a string `message` field
containing that phrase. -/
theorem c3_apiError_isNoDataAvailable_iff (status : ℤ) (statusText : String)
    (data : ApiData) :
    ApiError.isNoDataAvailable status statusText data = true ↔
      status = 404 ∨
      hasNoDataPhrase statusText = true ∨
      (∃ s : String, data = .str s ∧ hasNoDataPhrase s = true) ∨
      (∃ s : String, data = .obj (some s) ∧ hasNoDataPhrase s = true) := by
  cases data with
  | undef =>
    simp only [ApiError.isNoDataAvailable, Bool.or_false, Bool.or_eq_true,
      beq_iff_eq, textClause_iff]
    constructor
    · rintro (h | h)
      · exact Or.inl h
      · exact Or.inr (Or.inl h)
    · rintro (h | h | ⟨s, hs, -⟩ | ⟨s, hs, -⟩)
      · exact Or.inl h
      · exact Or.inr h
      · exact absurd hs (by simp)
      · exact absurd hs (by simp)
  | str t =>
    simp only [ApiError.isNoDataAvailable, Bool.or_false, Bool.or_eq_true,
      beq_iff_eq, textClause_iff]
    constructor
    · rintro ((h | h) | h)
      · exact Or.inl h
      · exact Or.inr (Or.inl h)
      · exact Or.inr (Or.inr (Or.inl ⟨t, rfl, h⟩))
    · rintro (h | h | ⟨s, hs, h⟩ | ⟨s, hs, -⟩)
      · exact Or.inl (Or.inl h)
      · exact Or.inl (Or.inr h)
      · cases hs
        exact Or.inr h
      · exact absurd hs (by simp)
  | obj m =>
    cases m with
    | none =>
      simp only [ApiError.isNoDataAvailable, Bool.or_false, Bool.or_eq_true,
        beq_iff_eq, textClause_iff]
      constructor
      · rintro (h | h)
        · exact Or.inl h
        · exact Or.inr (Or.inl h)
      · rintro (h | h | ⟨s, hs, -⟩ | ⟨s, hs, -⟩)
        · exact Or.inl h
        · exact Or.inr h
        · exact absurd hs (by simp)
        · exact absurd hs (by simp)
    | some t =>
      simp only [ApiError.isNoDataAvailable, Bool.or_false, Bool.false_or,
        Bool.or_eq_true, beq_iff_eq, textClause_iff]
      constructor
      · rintro ((h | h) | h)
        · exact Or.inl h
        · exact Or.inr (Or.inl h)
        · exact Or.inr (Or.inr (Or.inr ⟨t, rfl, h⟩))
      · rintro (h | h | ⟨s, hs, -⟩ | ⟨s, hs, h⟩)
        · exact Or.inl (Or.inl h)
        · exact Or.inl (Or.inr h)
        · exact absurd hs (by simp)
        · cases hs
          exact Or.inr h
  | otherTruthy =>
    simp only [ApiError.isNoDataAvailable, Bool.or_false, Bool.or_eq_true,
      beq_iff_eq, textClause_iff]
    constructor
    · rintro (h | h)
      · exact Or.inl h
      · exact Or.inr (Or.inl h)
    · rintro (h | h | ⟨s, hs, -⟩ | ⟨s, hs, -⟩)
      · exact Or.inl h
      · exact Or.inr h
      · exact absurd hs (by simp)
      · exact absurd hs (by simp)
  | otherFalsy =>
    simp only [ApiError.isNoDataAvailable, Bool.or_false, Bool.or_eq_true,
      beq_iff_eq, textClause_iff]
    constructor
    · rintro (h | h)
      · exact Or.inl h
      · exact Or.inr (Or.inl h)
    · rintro (h | h | ⟨s, hs, -⟩ | ⟨s, hs, -⟩)
      · exact Or.inl h
      · exact Or.inr h
      · exact absurd hs (by simp)
      · exact absurd hs (by simp)

/-! ## WeatherHub fetch wrappers (`weatherHub.ts`) and claims C2, C4 -/

/-- The `ForecastType` enum of `weatherHub.ts`. -/
inductive ForecastType where
  | TwoHour
  | TwentyFourHour
  | FourDay
deriving DecidableEq, Repr

/-- The `WeatherDataType` enum of `weatherHub.ts`. -/
inductive WeatherDataType where
  | AirTemperature
  | WindDirection
  | Lightning
  | WBGT
deriving DecidableEq, Repr

/-- Payload of a forecast response: the optional `items` and `records`
arrays inspected by `getForecast` (`I`, `R` are the element types). -/
structure ForecastPayload (I R : Type) where
  items : Option (List I)
  records : Option (List R)
deriving DecidableEq, Repr

/-- Payload of a weather-data response: the optional `readings` and `items`
arrays inspected by `getWeatherData`. -/
structure WeatherDataPayload (Rd J : Type) where
  readings : Option (List Rd)
  items : Option (List J)
deriving DecidableEq, Repr

/-- A service response with its optional nested `data` payload
(`ApiNestedResponse` shape: `{ data?: P }`). -/
structure ApiResp (P : Type) where
  data : Option P
deriving DecidableEq, Repr

/-- Truthiness of `xs && xs.length > 0` for an optional JS array. -/
def optNonempty {α : Type} : Option (List α) → Bool
  | some l => !l.isEmpty
  | none => false

/-- The `WeatherResult<T>` record of `weatherHub.ts`; the impure `timestamp`
field is omitted. -/
structure WeatherResult (T : Type) where
  data : Option T
  success : Bool
  error : Option String
  isNoDataAvailable : Option Bool
deriving DecidableEq, Repr

namespace WeatherHub

/-- The `hasData` check of `WeatherHub.getForecast`:
`data && ((data.data?.items && data.data.items.length > 0) ||
          (data.data?.records && data.data.records.length > 0))`. -/
def hasForecastData {I R : Type}
    (data : Option (ApiResp (ForecastPayload I R))) : Bool :=
  match data with
  | none => false
  | some r =>
    match r.data with
    | none => false
    | some p => optNonempty p.items || optNonempty p.records

/-- Embedding of the non-throwing path of `WeatherHub.getForecast`. The
`switch` on the forecast type selects which `WeatherService` call to await;
`resp` stands for what the selected call returns, so every branch of the
match yields it. -/
def getForecast {I R : Type} (type : ForecastType)
    (resp : Option (ApiResp (ForecastPayload I R))) :
    WeatherResult (ApiResp (ForecastPayload I R)) :=
  let data :=
    match type with
    | .TwoHour => resp
    | .TwentyFourHour => resp
    | .FourDay => resp
  if hasForecastData data then
    { data := data, success := true, error := none, isNoDataAvailable := none }
  else
    { data := data
      success := false
      error := some "No weather forecast data available at this time."
      isNoDataAvailable := some true }

/-- The `hasData` check of `WeatherHub.getWeatherData`:
`data && ((data.data?.readings && data.data.readings.length > 0) ||
          (data.data?.items && data.data.items.length > 0))`. -/
def hasWeatherData {Rd J : Type}
    (data : Option (ApiResp (WeatherDataPayload Rd J))) : Bool :=
  match data with
  | none => false
  | some r =>
    match r.data with
    | none => false
    | some p => optNonempty p.readings || optNonempty p.items

/-- Embedding of the non-throwing path of `WeatherHub.getWeatherData`,
analogous to `getForecast`. -/
def getWeatherData {Rd J : Type} (type : WeatherDataType)
    (resp : Option (ApiResp (WeatherDataPayload Rd J))) :
    WeatherResult (ApiResp (WeatherDataPayload Rd J)) :=
  let data :=
    match type with
    | .AirTemperature => resp
    | .WindDirection => resp
    | .Lightning => resp
    | .WBGT => resp
  if hasWeatherData data then
    { data := data, success := true, error := none, isNoDataAvailable := none }
  else
    { data := data
      success := false
      error := some "No weather data available at this time."
      isNoDataAvailable := some true }

end WeatherHub

/-- C2: for every forecast type and weather-data type, when the underlying
call returns a response whose payload has no (non-empty) `items`, `records`
or `readings` arrays, `getForecast` and `getWeatherData` return
`success = false`, `isNoDataAvailable = true` and a non-empty error message;
and they return `success = true` with no error exactly when the payload is
non-empty. -/
theorem c2_empty_payload_detection {I R Rd J : Type}
    (ft : ForecastType) (wt : WeatherDataType)
    (fp : ForecastPayload I R) (wp : WeatherDataPayload Rd J) :
    ((optNonempty fp.items = false ∧ optNonempty fp.records = false) →
      ∃ msg : String,
        WeatherHub.getForecast ft (some ⟨some fp⟩) =
          { data := some ⟨some fp⟩
            success := false
            error := some msg
            isNoDataAvailable := some true } ∧ msg ≠ "") ∧
    (((WeatherHub.getForecast ft (some ⟨some fp⟩)).success = true ∧
        (WeatherHub.getForecast ft (some ⟨some fp⟩)).error = none) ↔
      (optNonempty fp.items = true ∨ optNonempty fp.records = true)) ∧
    ((optNonempty wp.readings = false ∧ optNonempty wp.items = false) →
      ∃ msg : String,
        WeatherHub.getWeatherData wt (some ⟨some wp⟩) =
          { data := some ⟨some wp⟩
            success := false
            error := some msg
            isNoDataAvailable := some true } ∧ msg ≠ "") ∧
    (((WeatherHub.getWeatherData wt (some ⟨some wp⟩)).success = true ∧
        (WeatherHub.getWeatherData wt (some ⟨some wp⟩)).error = none) ↔
      (optNonempty wp.readings = true ∨ optNonempty wp.items = true)) := by
  have hf : WeatherHub.getForecast ft (some ⟨some fp⟩) =
      (if optNonempty fp.items || optNonempty fp.records then
        { data := some ⟨some fp⟩, success := true, error := none,
          isNoDataAvailable := none }
      else
        { data := some ⟨some fp⟩, success := false,
          error := some "No weather forecast data available at this time.",
          isNoDataAvailable := some true }) := by
    cases ft <;> rfl
  have hw : WeatherHub.getWeatherData wt (some ⟨some wp⟩) =
      (if optNonempty wp.readings || optNonempty wp.items then
        { data := some ⟨some wp⟩, success := true, error := none,
          isNoDataAvailable := none }
      else
        { data := some ⟨some wp⟩, success := false,
          error := some "No weather data available at this time.",
          isNoDataAvailable := some true }) := by
    cases wt <;> rfl
  refine ⟨?_, ?_, ?_, ?_⟩
  · rintro ⟨h1, h2⟩
    refine ⟨"No weather forecast data available at this time.", ?_, by decide⟩
    rw [hf, if_neg (by simp [h1, h2])]
  · rw [hf]
    by_cases h : optNonempty fp.items || optNonempty fp.records
    · rw [if_pos h]
      simpa using Bool.or_eq_true _ _ |>.mp h
    · rw [if_neg h]
      simp only [Bool.or_eq_true] at h
      simpa using h
  · rintro ⟨h1, h2⟩
    refine ⟨"No weather data available at this time.", ?_, by decide⟩
    rw [hw, if_neg (by simp [h1, h2])]
  · rw [hw]
    by_cases h : optNonempty wp.readings || optNonempty wp.items
    · rw [if_pos h]
      simpa using Bool.or_eq_true _ _ |>.mp h
    · rw [if_neg h]
      simp only [Bool.or_eq_true] at h
      simpa using h

/-- C2 witness: instantiation of `c2_empty_payload_detection` at the two-hour
forecast type with an entirely empty payload over `ℕ` element types. -/
theorem c2_empty_payload_detection_witness :
    (optNonempty (none : Option (List ℕ)) = false ∧
      optNonempty (none : Option (List ℕ)) = false) ∧
    ∃ msg : String,
      WeatherHub.getForecast ForecastType.TwoHour
          (some ⟨some (⟨none, none⟩ : ForecastPayload ℕ ℕ)⟩) =
        { data := some ⟨some ⟨none, none⟩⟩
          success := false
          error := some msg
          isNoDataAvailable := some true } ∧ msg ≠ "" :=
  ⟨⟨rfl, rfl⟩,
   (c2_empty_payload_detection ForecastType.TwoHour WeatherDataType.WBGT
      (⟨none, none⟩ : ForecastPayload ℕ ℕ)
      (⟨none, none⟩ : WeatherDataPayload ℕ ℕ)).1 ⟨rfl, rfl⟩⟩

/-- The `partialData` object of a failed dashboard fetch, carrying the three
results' `data` fields. -/
structure PartData (A B C : Type) where
  twoHourForecast : Option A
  airTemperature : Option B
  windDirection : Option C
deriving DecidableEq, Repr

/-- Result object of `WeatherHub.getWeatherDashboard` (impure `timestamp`
omitted): on failure it carries `error` and the `partialData` object (modelled
by the `pd` field); on success it carries the three data fields. -/
structure DashboardResult (A B C : Type) where
  success : Bool
  error : Option String
  twoHourForecast : Option A
  airTemperature : Option B
  windDirection : Option C
  pd : Option (PartData A B C)
deriving DecidableEq, Repr

namespace WeatherHub

/-- Embedding of `WeatherHub.getWeatherDashboard` as a function of the three
results produced by its `Promise.all` fan-out (the two-hour forecast, the air
temperature and the wind direction, in that order): if any of the three
results failed, return `success: false` with the joined error messages
(`[...].filter(Boolean).join(", ")`) and the `partialData` object; otherwise
return the three `data` fields with `success: true`. -/
def getWeatherDashboard {A B C : Type}
    (twoHourResult : WeatherResult A) (airTempResult : WeatherResult B)
    (windDirectionResult : WeatherResult C) : DashboardResult A B C :=
  if !twoHourResult.success || !airTempResult.success ||
      !windDirectionResult.success then
    let errors := String.intercalate ", "
      ((([twoHourResult.error, airTempResult.error,
          windDirectionResult.error].filterMap id).filter
        (fun s => s != "")))
    { success := false
      error := some ("Failed to fetch some weather data: " ++ errors)
      twoHourForecast := none
      airTemperature := none
      windDirection := none
      pd := some
        { twoHourForecast := twoHourResult.data
          airTemperature := airTempResult.data
          windDirection := windDirectionResult.data } }
  else
    { success := true
      error := none
      twoHourForecast := twoHourResult.data
      airTemperature := airTempResult.data
      windDirection := windDirectionResult.data
      pd := none }

end WeatherHub

/-- C4: whenever at least one of the three fetch results has
`success = false`, `getWeatherDashboard` returns `success = false`, the error
string obtained by joining the individual (present, non-empty) error messages
with `", "` after the fixed prefix, and a `partialData` object carrying all
three results' `data` fields; when all three succeed it returns the three
`data` fields with `success = true` and no error. -/
theorem c4_dashboard_aggregation {A B C : Type}
    (t : WeatherResult A) (a : WeatherResult B) (w : WeatherResult C) :
    ((t.success = false ∨ a.success = false ∨ w.success = false) →
      WeatherHub.getWeatherDashboard t a w =
        { success := false
          error := some ("Failed to fetch some weather data: " ++
            String.intercalate ", "
              ((([t.error, a.error, w.error].filterMap id).filter
                (fun s => s != ""))))
          twoHourForecast := none
          airTemperature := none
          windDirection := none
          pd := some
            { twoHourForecast := t.data
              airTemperature := a.data
              windDirection := w.data } }) ∧
    ((t.success = true ∧ a.success = true ∧ w.success = true) →
      WeatherHub.getWeatherDashboard t a w =
        { success := true
          error := none
          twoHourForecast := t.data
          airTemperature := a.data
          windDirection := w.data
          pd := none }) := by
  constructor
  · intro h
    rw [WeatherHub.getWeatherDashboard]
    rw [if_pos]
    rcases h with h | h | h <;> simp [h]
  · rintro ⟨h1, h2, h3⟩
    rw [WeatherHub.getWeatherDashboard]
    rw [if_neg]
    simp [h1, h2, h3]

/-- C4 witness: instantiation of `c4_dashboard_aggregation` where the wind
direction fetch failed, and where all three succeeded. -/
theorem c4_dashboard_aggregation_witness :
    letI tOk : WeatherResult ℕ :=
      { data := some 1, success := true, error := none,
        isNoDataAvailable := none }
    letI aOk : WeatherResult ℕ :=
      { data := some 2, success := true, error := none,
        isNoDataAvailable := none }
    letI wBad : WeatherResult ℕ :=
      { data := none, success := false,
        error := some "No weather data available at this time.",
        isNoDataAvailable := some true }
    (tOk.success = false ∨ aOk.success = false ∨ wBad.success = false) ∧
    (WeatherHub.getWeatherDashboard tOk aOk wBad).error =
      some ("Failed to fetch some weather data: " ++
        "No weather data available at this time.") ∧
    (tOk.success = true ∧ aOk.success = true ∧ aOk.success = true) ∧
    WeatherHub.getWeatherDashboard tOk aOk aOk =
      { success := true
        error := none
        twoHourForecast := some 1
        airTemperature := some 2
        windDirection := some 2
        pd := none } := by
  refine ⟨Or.inr (Or.inr rfl), ?_, ⟨rfl, rfl, rfl⟩, ?_⟩
  · have h := (c4_dashboard_aggregation
      ({ data := some 1, success := true, error := none,
         isNoDataAvailable := none } : WeatherResult ℕ)
      ({ data := some 2, success := true, error := none,
         isNoDataAvailable := none } : WeatherResult ℕ)
      ({ data := none, success := false,
         error := some "No weather data available at this time.",
         isNoDataAvailable := some true } : WeatherResult ℕ)).1
      (Or.inr (Or.inr rfl))
    rw [h]
    rfl
  · exact (c4_dashboard_aggregation
      ({ data := some 1, success := true, error := none,
         isNoDataAvailable := none } : WeatherResult ℕ)
      ({ data := some 2, success := true, error := none,
         isNoDataAvailable := none } : WeatherResult ℕ)
      ({ data := some 2, success := true, error := none,
         isNoDataAvailable := none } : WeatherResult ℕ)).2 ⟨rfl, rfl, rfl⟩

/-! ## Unique areas (`getUniqueAreas` in `weatherHub.ts` and weather-utils)
and claim C9 -/

/-- One insertion into a JS `Set` viewed as its insertion-ordered element
list: appends the element unless already present. -/
def setInsert (acc : List String) (s : String) : List String :=
  if s ∈ acc then acc else acc ++ [s]

/-- The insertion-ordered element list of `new Set(l)`: first occurrences
kept, later duplicates dropped. -/
def setDedup (l : List String) : List String :=
  l.foldl setInsert []

/-- The default JS string comparison (lexicographic by code unit), modelled
as the lexicographic order on the character lists. It agrees with the `≤` of
`String`'s linear order (`strLe_iff`). -/
def strLe (a b : String) : Prop :=
  a.data ≤ b.data

instance : DecidableRel strLe :=
  fun a b => (inferInstance : Decidable (a.data ≤ b.data))

/-- The modelled JS comparison agrees with the linear order on `String`. -/
theorem strLe_iff (a b : String) : strLe a b ↔ a ≤ b := by
  rw [strLe, String.le_iff_toList_le]
  rfl

instance : IsTotal String strLe :=
  ⟨fun a b => by
    rw [strLe_iff, strLe_iff]
    exact le_total a b⟩

instance : IsTrans String strLe :=
  ⟨fun a b c h1 h2 => by
    rw [strLe_iff] at *
    exact le_trans h1 h2⟩

/-- JS `Array.prototype.sort()` on an array of strings: lexicographic
ascending sort, modelled with the stable `List.insertionSort`. -/
def sortStrings (l : List String) : List String :=
  l.insertionSort strLe

namespace WeatherHub

/-- Embedding of `WeatherHub.getUniqueAreas`:
`[...new Set(forecasts.map(f => f.area))].sort()`, with `"All Areas"`
prepended when `includeAllAreas` is set (its TypeScript default is `true`). -/
def getUniqueAreas (forecasts : List Forecast) (includeAllAreas : Bool) :
    List String :=
  let areas := sortStrings (setDedup (forecasts.map (fun f => f.area)))
  if includeAllAreas then "All Areas" :: areas else areas

end WeatherHub

namespace WeatherUtils

/-- Embedding of the weather-utils `getUniqueAreas`
(same body as `WeatherHub.getUniqueAreas`). -/
def getUniqueAreas (forecasts : List Forecast) (includeAllAreas : Bool) :
    List String :=
  let areas := sortStrings (setDedup (forecasts.map (fun f => f.area)))
  if includeAllAreas then "All Areas" :: areas else areas

end WeatherUtils

/-- Membership after folding `setInsert` over a list. -/
theorem mem_foldl_setInsert (l : List String) (acc : List String)
    (x : String) : x ∈ l.foldl setInsert acc ↔ x ∈ acc ∨ x ∈ l := by
  induction l generalizing acc with
  | nil => simp
  | cons a t ih =>
    rw [List.foldl_cons, ih]
    unfold setInsert
    by_cases h : a ∈ acc
    · rw [if_pos h]
      constructor
      · rintro (hx | hx)
        · exact Or.inl hx
        · exact Or.inr (List.mem_cons_of_mem a hx)
      · rintro (hx | hx)
        · exact Or.inl hx
        · rcases List.mem_cons.mp hx with hx | hx
          · exact Or.inl (hx ▸ h)
          · exact Or.inr hx
    · rw [if_neg h]
      constructor
      · rintro (hx | hx)
        · rcases List.mem_append.mp hx with hx | hx
          · exact Or.inl hx
          · exact Or.inr (List.mem_cons.mpr (Or.inl (List.mem_singleton.mp hx)))
        · exact Or.inr (List.mem_cons_of_mem a hx)
      · rintro (hx | hx)
        · exact Or.inl (List.mem_append.mpr (Or.inl hx))
        · rcases List.mem_cons.mp hx with hx | hx
          · exact Or.inl (List.mem_append.mpr (Or.inr (by simp [hx])))
          · exact Or.inr hx

/-- Folding `setInsert` preserves duplicate-freeness of the accumulator. -/
theorem nodup_foldl_setInsert (l : List String) (acc : List String)
    (hacc : acc.Nodup) : (l.foldl setInsert acc).Nodup := by
  induction l generalizing acc with
  | nil => simpa
  | cons a t ih =>
    rw [List.foldl_cons]
    apply ih
    unfold setInsert
    by_cases h : a ∈ acc
    · rwa [if_pos h]
    · rw [if_neg h]
      simp [List.nodup_append, hacc, h]

/-- Folding `setInsert` over elements already present leaves the accumulator
unchanged. -/
theorem foldl_setInsert_of_subset (l : List String) (acc : List String)
    (h : ∀ x ∈ l, x ∈ acc) : l.foldl setInsert acc = acc := by
  induction l with
  | nil => rfl
  | cons a t ih =>
    rw [List.foldl_cons]
    have ha : setInsert acc a = acc := by
      unfold setInsert
      rw [if_pos (h a (List.mem_cons_self a t))]
    rw [ha]
    exact ih (fun x hx => h x (List.mem_cons_of_mem a hx))

/-- C9: `getUniqueAreas` with `includeAllAreas = false` is duplicate-free,
ascending-sorted and contains exactly the distinct area names of the input;
with `includeAllAreas = true` it is the same list preceded by the extra entry
`"All Areas"`; appending forecasts whose areas already occur leaves the result
unchanged. The weather-utils copy agrees with the hub copy on every input. -/
theorem c9_unique_areas_spec (forecasts extra : List Forecast) (b : Bool) :
    WeatherHub.getUniqueAreas forecasts b =
      WeatherUtils.getUniqueAreas forecasts b ∧
    (WeatherHub.getUniqueAreas forecasts false).Nodup ∧
    List.Sorted (· ≤ ·) (WeatherHub.getUniqueAreas forecasts false) ∧
    (∀ s : String,
      s ∈ WeatherHub.getUniqueAreas forecasts false ↔
        s ∈ forecasts.map (fun f => f.area)) ∧
    WeatherHub.getUniqueAreas forecasts true =
      "All Areas" :: WeatherHub.getUniqueAreas forecasts false ∧
    ((∀ g ∈ extra, g.area ∈ forecasts.map (fun f => f.area)) →
      WeatherHub.getUniqueAreas (forecasts ++ extra) b =
        WeatherHub.getUniqueAreas forecasts b) := by
  refine ⟨rfl, ?_, ?_, ?_, rfl, ?_⟩
  · rw [WeatherHub.getUniqueAreas]
    simp only [if_neg Bool.false_ne_true]
    exact ((List.perm_insertionSort _ _).nodup_iff).mpr
      (nodup_foldl_setInsert _ _ List.nodup_nil)
  · rw [WeatherHub.getUniqueAreas]
    simp only [if_neg Bool.false_ne_true]
    exact (List.sorted_insertionSort strLe _).imp
      (fun h => (strLe_iff _ _).mp h)
  · intro s
    rw [WeatherHub.getUniqueAreas]
    simp only [if_neg Bool.false_ne_true]
    rw [sortStrings, (List.perm_insertionSort _ _).mem_iff, setDedup,
      mem_foldl_setInsert]
    simp
  · intro h
    rw [WeatherHub.getUniqueAreas, WeatherHub.getUniqueAreas]
    have : setDedup ((forecasts ++ extra).map (fun f => f.area)) =
        setDedup (forecasts.map (fun f => f.area)) := by
      rw [List.map_append, setDedup, List.foldl_append]
      exact foldl_setInsert_of_subset _ _
        (fun x hx => by
          rcases List.mem_map.mp hx with ⟨g, hg, rfl⟩
          exact (mem_foldl_setInsert _ _ _).mpr (Or.inr (h g hg)))
    rw [this]

/-- C9 witness: instantiation of `c9_unique_areas_spec` with an appended
duplicate-area forecast, checking the result is unchanged and equal to the
sorted unique list with `"All Areas"` in front. -/
theorem c9_unique_areas_spec_witness :
    (∀ g ∈ [(⟨"Bedok", "Rain"⟩ : Forecast)],
      g.area ∈ [(⟨"Bedok", "Cloudy"⟩ : Forecast),
        ⟨"Ang Mo Kio", "Fair"⟩].map (fun f => f.area)) ∧
    WeatherHub.getUniqueAreas
        ([⟨"Bedok", "Cloudy"⟩, ⟨"Ang Mo Kio", "Fair"⟩] ++ [⟨"Bedok", "Rain"⟩])
        true =
      WeatherHub.getUniqueAreas [⟨"Bedok", "Cloudy"⟩, ⟨"Ang Mo Kio", "Fair"⟩]
        true ∧
    WeatherHub.getUniqueAreas [⟨"Bedok", "Cloudy"⟩, ⟨"Ang Mo Kio", "Fair"⟩]
        true = ["All Areas", "Ang Mo Kio", "Bedok"] :=
  ⟨by decide,
   (c9_unique_areas_spec [⟨"Bedok", "Cloudy"⟩, ⟨"Ang Mo Kio", "Fair"⟩]
      [⟨"Bedok", "Rain"⟩] true).2.2.2.2.2 (by decide),
   by decide⟩

/-! ## Weather categories and statistics (weather-utils) and claim C7 -/

/-- The `WeatherCategory` enum of the weather-utils module. -/
inductive WeatherCategory where
  | Sunny
  | Cloudy
  | Rainy
  | Thundery
  | Windy
  | Misc
deriving DecidableEq, Repr

namespace WeatherUtils

/-- Embedding of `categorizeWeatherForecast`: case-insensitive keyword checks
in the source's order. -/
def categorizeWeatherForecast (forecast : String) : WeatherCategory :=
  let lowercaseForecast := jsToLower forecast
  if hasSub "fair" lowercaseForecast || hasSub "sunny" lowercaseForecast then
    .Sunny
  else if hasSub "thunder" lowercaseForecast then
    .Thundery
  else if hasSub "rain" lowercaseForecast || hasSub "shower" lowercaseForecast
      || hasSub "drizzle" lowercaseForecast then
    .Rainy
  else if hasSub "cloudy" lowercaseForecast
      || hasSub "overcast" lowercaseForecast
      || hasSub "hazy" lowercaseForecast then
    .Cloudy
  else if hasSub "wind" lowercaseForecast || hasSub "gust" lowercaseForecast
      then
    .Windy
  else
    .Misc

/-- One step of the `for` loop of `getForecastsByCategory`: push the forecast
onto the bucket of its category (`result[category].push(forecast)`). -/
def pushCat (result : WeatherCategory → List Forecast) (f : Forecast) :
    WeatherCategory → List Forecast :=
  fun c =>
    if c = categorizeWeatherForecast f.forecast then result c ++ [f]
    else result c

/-- Embedding of `getForecastsByCategory`: the record of six buckets (viewed
as a function from categories), built by pushing each forecast onto the
bucket of its category, starting from six empty buckets. -/
def getForecastsByCategory (forecasts : List Forecast) :
    WeatherCategory → List Forecast :=
  forecasts.foldl pushCat (fun _ => [])

end WeatherUtils

/-- Folding `pushCat` appends, bucket-wise, exactly the forecasts of each
category in input order. -/
theorem foldl_pushCat_eq (forecasts : List Forecast)
    (acc : WeatherCategory → List Forecast) (c : WeatherCategory) :
    (forecasts.foldl WeatherUtils.pushCat acc) c =
      acc c ++ forecasts.filter
        (fun f => WeatherUtils.categorizeWeatherForecast f.forecast == c) := by
  induction forecasts generalizing acc with
  | nil => simp
  | cons f t ih =>
    rw [List.foldl_cons, ih, List.filter_cons]
    by_cases h : WeatherUtils.categorizeWeatherForecast f.forecast = c
    · simp [WeatherUtils.pushCat, h]
    · simp [WeatherUtils.pushCat, h, Ne.symm h]

/-- Each bucket of `getForecastsByCategory` is the filter of the input by
that category. -/
theorem getForecastsByCategory_eq_filter (forecasts : List Forecast)
    (c : WeatherCategory) :
    WeatherUtils.getForecastsByCategory forecasts c =
      forecasts.filter
        (fun f => WeatherUtils.categorizeWeatherForecast f.forecast == c) := by
  rw [WeatherUtils.getForecastsByCategory, foldl_pushCat_eq]
  rfl

/-- The six bucket sizes of `getForecastsByCategory` sum to the input
length. -/
theorem sum_bucket_lengths (forecasts : List Forecast) :
    (WeatherUtils.getForecastsByCategory forecasts .Sunny).length +
    (WeatherUtils.getForecastsByCategory forecasts .Cloudy).length +
    (WeatherUtils.getForecastsByCategory forecasts .Rainy).length +
    (WeatherUtils.getForecastsByCategory forecasts .Thundery).length +
    (WeatherUtils.getForecastsByCategory forecasts .Windy).length +
    (WeatherUtils.getForecastsByCategory forecasts .Misc).length =
      forecasts.length := by
  simp only [getForecastsByCategory_eq_filter]
  induction forecasts with
  | nil => rfl
  | cons f t ih =>
    simp only [List.filter_cons]
    cases h : WeatherUtils.categorizeWeatherForecast f.forecast <;>
      simp [h] <;> omega

namespace WeatherUtils

/-- One step of the counting loop of `getMostCommonForecast`
(`counts[f.forecast] = (counts[f.forecast] || 0) + 1`), on the
insertion-ordered entry list of the `counts` object. -/
def bump : List (String × ℕ) → String → List (String × ℕ)
  | [], s => [(s, 1)]
  | (k, v) :: rest, s =>
    if k = s then (k, v + 1) :: rest else (k, v) :: bump rest s

/-- The insertion-ordered entry list of the `counts` object after the
counting loop of `getMostCommonForecast`. -/
def forecastCounts (forecasts : List Forecast) : List (String × ℕ) :=
  forecasts.foldl (fun acc f => bump acc f.forecast) []

/-- The descending comparator `(a, b) => b[1] - a[1]` used on count entries:
`a` comes no later than `b` when `b`'s count is at most `a`'s. -/
def entryLe (a b : String × ℕ) : Prop :=
  b.2 ≤ a.2

instance : DecidableRel entryLe :=
  fun a b => Nat.decLe b.2 a.2

instance : IsTotal (String × ℕ) entryLe :=
  ⟨fun a b => Nat.le_total b.2 a.2⟩

instance : IsTrans (String × ℕ) entryLe :=
  ⟨fun _ _ _ h1 h2 => Nat.le_trans h2 h1⟩

/-- Embedding of `getMostCommonForecast`: `null` on an empty input or an
empty entry list; otherwise the head of the entry list stably sorted in
descending count order (`entries.sort((a, b) => b[1] - a[1])[0]`). -/
def getMostCommonForecast (forecasts : List Forecast) :
    Option (String × ℕ) :=
  if forecasts.length = 0 then none
  else if (forecastCounts forecasts).length = 0 then none
  else ((forecastCounts forecasts).insertionSort entryLe).head?

/-- One per-category entry of `calculateWeatherStatistics.categoryStats`. -/
structure CategoryStat where
  category : WeatherCategory
  count : ℕ
  percentage : ℚ
deriving DecidableEq, Repr

/-- The record returned by `calculateWeatherStatistics`. -/
structure WeatherStatistics where
  totalAreas : ℕ
  categoryStats : List CategoryStat
  mostCommon : Option (String × ℕ)
  byCategory : WeatherCategory → List Forecast

/-- The six categories in the declaration order of the bucket record, which
is the iteration order of `Object.entries` over it. -/
def allCategories : List WeatherCategory :=
  [.Sunny, .Cloudy, .Rainy, .Thundery, .Windy, .Misc]

/-- Embedding of `calculateWeatherStatistics`: bucket the forecasts, compute
each category's count and percentage
(`total > 0 ? count / total * 100 : 0`), and the most common forecast. -/
def calculateWeatherStatistics (forecasts : List Forecast) :
    WeatherStatistics :=
  let forecastsByCategory := getForecastsByCategory forecasts
  let totalForecasts := forecasts.length
  { totalAreas := totalForecasts
    categoryStats := allCategories.map (fun c =>
      { category := c
        count := (forecastsByCategory c).length
        percentage :=
          if 0 < totalForecasts then
            ((forecastsByCategory c).length : ℚ) / (totalForecasts : ℚ) * 100
          else 0 })
    mostCommon := getMostCommonForecast forecasts
    byCategory := forecastsByCategory }

end WeatherUtils

/-- Looking a key up in a count-entry list: the count of the first entry with
that key, `0` when absent. -/
def entryCount (l : List (String × ℕ)) (k : String) : ℕ :=
  match l.find? (fun p => p.1 == k) with
  | some p => p.2
  | none => 0

/-- The empty entry list counts every key as zero. -/
theorem entryCount_nil (k : String) : entryCount [] k = 0 :=
  rfl

/-- Unfolding `entryCount` over a head entry. -/
theorem entryCount_cons (a : String) (v : ℕ) (t : List (String × ℕ))
    (k : String) :
    entryCount ((a, v) :: t) k = if a = k then v else entryCount t k := by
  rw [entryCount]
  by_cases h : a = k
  · rw [List.find?_cons_of_pos _ (by simp [h]), if_pos h]
  · rw [List.find?_cons_of_neg _ (by simp [h]), if_neg h, entryCount]

/-- Bumping a key increments exactly that key's count. -/
theorem entryCount_bump (l : List (String × ℕ)) (s k : String) :
    entryCount (WeatherUtils.bump l s) k =
      entryCount l k + (if k = s then 1 else 0) := by
  induction l with
  | nil =>
    rw [WeatherUtils.bump, entryCount_cons, entryCount_nil]
    by_cases h : k = s
    · rw [if_pos (Eq.symm h), if_pos h]
    · rw [if_neg (fun hh => h (Eq.symm hh)), if_neg h]
  | cons p t ih =>
    obtain ⟨a, v⟩ := p
    rw [WeatherUtils.bump]
    by_cases has : a = s
    · rw [if_pos has, entryCount_cons, entryCount_cons]
      by_cases hak : a = k
      · rw [if_pos hak, if_pos hak, if_pos (hak.symm.trans has)]
      · rw [if_neg hak, if_neg hak,
          if_neg (fun hks => hak (has.trans hks.symm))]
        rfl
    · rw [if_neg has, entryCount_cons, entryCount_cons]
      by_cases hak : a = k
      · rw [if_pos hak, if_pos hak,
          if_neg (fun hks => has (hak.trans hks))]
        rfl
      · rw [if_neg hak, if_neg hak]
        exact ih

/-- The key list of a count-entry list. -/
def entryKeys (l : List (String × ℕ)) : List String :=
  l.map (fun p => p.1)

/-- Bumping a key appends it to the key list when new, otherwise keeps the
key list unchanged. -/
theorem entryKeys_bump (l : List (String × ℕ)) (s : String) :
    entryKeys (WeatherUtils.bump l s) =
      if s ∈ entryKeys l then entryKeys l else entryKeys l ++ [s] := by
  induction l with
  | nil => simp [WeatherUtils.bump, entryKeys]
  | cons p t ih =>
    obtain ⟨a, v⟩ := p
    by_cases has : a = s
    · subst has
      rw [WeatherUtils.bump, if_pos rfl]
      simp [entryKeys]
    · rw [WeatherUtils.bump, if_neg has]
      simp only [entryKeys, List.map_cons] at ih ⊢
      rw [ih]
      by_cases hs : s ∈ List.map (fun p => p.1) t
      · rw [if_pos hs, if_pos (List.mem_cons_of_mem a hs)]
      · rw [if_neg hs, if_neg (by
          intro hmem
          rcases List.mem_cons.mp hmem with h | h
          · exact has (Eq.symm h)
          · exact hs h)]
        simp

/-- Bumping preserves duplicate-freeness of the key list. -/
theorem nodup_entryKeys_bump (l : List (String × ℕ)) (s : String)
    (h : (entryKeys l).Nodup) : (entryKeys (WeatherUtils.bump l s)).Nodup := by
  rw [entryKeys_bump]
  by_cases hs : s ∈ entryKeys l
  · rwa [if_pos hs]
  · rw [if_neg hs]
    simp [List.nodup_append, h, hs]

/-- Bumping preserves positivity of all counts. -/
theorem pos_bump (l : List (String × ℕ)) (s : String)
    (h : ∀ p ∈ l, 0 < p.2) : ∀ p ∈ WeatherUtils.bump l s, 0 < p.2 := by
  induction l with
  | nil =>
    intro p hp
    simp only [WeatherUtils.bump, List.mem_singleton] at hp
    subst hp
    exact Nat.one_pos
  | cons q t ih =>
    obtain ⟨a, v⟩ := q
    intro p hp
    by_cases has : a = s
    · subst has
      rw [WeatherUtils.bump, if_pos rfl] at hp
      rcases List.mem_cons.mp hp with hp | hp
      · subst hp
        exact Nat.succ_pos v
      · exact h p (List.mem_cons_of_mem _ hp)
    · rw [WeatherUtils.bump, if_neg has] at hp
      rcases List.mem_cons.mp hp with hp | hp
      · subst hp
        exact h (a, v) (List.mem_cons_self _ _)
      · exact ih (fun q hq => h q (List.mem_cons_of_mem _ hq)) p hp

/-- Bumping never yields the empty entry list. -/
theorem bump_ne_nil (l : List (String × ℕ)) (s : String) :
    WeatherUtils.bump l s ≠ [] := by
  cases l with
  | nil => simp [WeatherUtils.bump]
  | cons p t =>
    obtain ⟨a, v⟩ := p
    rw [WeatherUtils.bump]
    by_cases has : a = s
    · rw [if_pos has]
      simp
    · rw [if_neg has]
      simp

/-- Folding the counting loop adds, key-wise, the occurrence counts of the
processed forecast strings. -/
theorem entryCount_foldl_bump (fs : List Forecast)
    (acc : List (String × ℕ)) (k : String) :
    entryCount (fs.foldl (fun a f => WeatherUtils.bump a f.forecast) acc) k =
      entryCount acc k + (fs.map (fun f => f.forecast)).count k := by
  induction fs generalizing acc with
  | nil => simp
  | cons f t ih =>
    rw [List.foldl_cons, ih, entryCount_bump, List.map_cons, List.count_cons]
    by_cases h : k = f.forecast
    · subst h
      simp
      omega
    · simp [h, Ne.symm h]

/-- The entry list built by `getMostCommonForecast` counts each forecast
string exactly. -/
theorem entryCount_forecastCounts (fs : List Forecast) (k : String) :
    entryCount (WeatherUtils.forecastCounts fs) k =
      (fs.map (fun f => f.forecast)).count k := by
  rw [WeatherUtils.forecastCounts, entryCount_foldl_bump, entryCount_nil,
    Nat.zero_add]

/-- The counting loop keeps the key list duplicate-free. -/
theorem nodup_entryKeys_foldl_bump (fs : List Forecast)
    (acc : List (String × ℕ)) (h : (entryKeys acc).Nodup) :
    (entryKeys
      (fs.foldl (fun a f => WeatherUtils.bump a f.forecast) acc)).Nodup := by
  induction fs generalizing acc with
  | nil => simpa
  | cons f t ih =>
    rw [List.foldl_cons]
    exact ih _ (nodup_entryKeys_bump _ _ h)

/-- The entry list of `getMostCommonForecast` has duplicate-free keys. -/
theorem nodup_entryKeys_forecastCounts (fs : List Forecast) :
    (entryKeys (WeatherUtils.forecastCounts fs)).Nodup :=
  nodup_entryKeys_foldl_bump fs [] List.nodup_nil

/-- The counting loop keeps all counts positive. -/
theorem pos_foldl_bump (fs : List Forecast) (acc : List (String × ℕ))
    (h : ∀ p ∈ acc, 0 < p.2) :
    ∀ p ∈ fs.foldl (fun a f => WeatherUtils.bump a f.forecast) acc,
      0 < p.2 := by
  induction fs generalizing acc with
  | nil => exact h
  | cons f t ih =>
    rw [List.foldl_cons]
    exact ih _ (pos_bump _ _ h)

/-- All counts in the entry list of `getMostCommonForecast` are positive. -/
theorem pos_forecastCounts (fs : List Forecast) :
    ∀ p ∈ WeatherUtils.forecastCounts fs, 0 < p.2 :=
  pos_foldl_bump fs [] (by intro p hp; cases hp)

/-- The counting loop never empties a non-empty accumulator, and a non-empty
forecast list yields a non-empty entry list. -/
theorem foldl_bump_ne_nil (fs : List Forecast) (acc : List (String × ℕ))
    (h : acc ≠ []) :
    fs.foldl (fun a f => WeatherUtils.bump a f.forecast) acc ≠ [] := by
  induction fs generalizing acc with
  | nil => simpa
  | cons f t ih =>
    rw [List.foldl_cons]
    exact ih _ (bump_ne_nil _ _)

/-- A non-empty forecast list produces a non-empty entry list. -/
theorem forecastCounts_ne_nil (fs : List Forecast) (h : fs ≠ []) :
    WeatherUtils.forecastCounts fs ≠ [] := by
  cases fs with
  | nil => exact absurd rfl h
  | cons f t =>
    rw [WeatherUtils.forecastCounts, List.foldl_cons]
    exact foldl_bump_ne_nil t _ (bump_ne_nil _ _)

/-- With duplicate-free keys, membership determines the looked-up count. -/
theorem entryCount_eq_of_mem (l : List (String × ℕ))
    (hnd : (entryKeys l).Nodup) (k : String) (v : ℕ) (hm : (k, v) ∈ l) :
    entryCount l k = v := by
  induction l with
  | nil => cases hm
  | cons p t ih =>
    obtain ⟨a, w⟩ := p
    rw [entryCount_cons]
    rcases List.mem_cons.mp hm with h | h
    · injection h with h1 h2
      rw [if_pos h1.symm]
      exact h2.symm
    · have hk : k ∈ entryKeys t :=
        List.mem_map.mpr ⟨(k, v), h, rfl⟩
      have hna : a ∉ entryKeys t := by
        have := hnd
        rw [entryKeys, List.map_cons, List.nodup_cons] at this
        exact this.1
      rw [if_neg (fun hak => hna (by rw [hak]; exact hk))]
      refine ih ?_ h
      rw [entryKeys, List.map_cons, List.nodup_cons] at hnd
      exact hnd.2

/-- A key with a positive looked-up count occurs in the entry list with that
count. -/
theorem mem_of_entryCount_pos (l : List (String × ℕ)) (k : String)
    (h : 0 < entryCount l k) : (k, entryCount l k) ∈ l := by
  rw [entryCount] at h ⊢
  cases hf : l.find? (fun p => p.1 == k) with
  | none =>
    rw [hf] at h
    simp at h
  | some p =>
    have hp1 : p.1 = k := by simpa using List.find?_some hf
    have hp : p ∈ l := List.mem_of_find?_eq_some hf
    rw [← hp1]
    simpa using hp

/-- The `mostCommon` field of `calculateWeatherStatistics` is
`getMostCommonForecast`. -/
theorem calculateWeatherStatistics_mostCommon (fs : List Forecast) :
    (WeatherUtils.calculateWeatherStatistics fs).mostCommon =
      WeatherUtils.getMostCommonForecast fs :=
  rfl

/-- On a non-empty input, `getMostCommonForecast` returns a forecast string
of the input together with its occurrence count, and that count is maximal
among all forecast strings of the input. -/
theorem getMostCommonForecast_spec (fs : List Forecast) (h : fs ≠ []) :
    ∃ s : String, ∃ n : ℕ,
      WeatherUtils.getMostCommonForecast fs = some (s, n) ∧
      s ∈ fs.map (fun f => f.forecast) ∧
      n = (fs.map (fun f => f.forecast)).count s ∧
      ∀ t ∈ fs.map (fun f => f.forecast),
        (fs.map (fun f => f.forecast)).count t ≤ n := by
  have hlen : ¬fs.length = 0 := fun hl => h (List.length_eq_zero.mp hl)
  have hent : WeatherUtils.forecastCounts fs ≠ [] := forecastCounts_ne_nil fs h
  have hlen2 : ¬(WeatherUtils.forecastCounts fs).length = 0 :=
    fun hl => hent (List.length_eq_zero.mp hl)
  have hperm := List.perm_insertionSort WeatherUtils.entryLe
    (WeatherUtils.forecastCounts fs)
  have hsortlen :
      ¬((WeatherUtils.forecastCounts fs).insertionSort
          WeatherUtils.entryLe).length = 0 := by
    rw [hperm.length_eq]
    exact hlen2
  cases hs : (WeatherUtils.forecastCounts fs).insertionSort
      WeatherUtils.entryLe with
  | nil =>
    rw [hs] at hsortlen
    exact absurd rfl hsortlen
  | cons e rest =>
    have hesort : e ∈ (WeatherUtils.forecastCounts fs).insertionSort
        WeatherUtils.entryLe := by
      rw [hs]
      exact List.mem_cons_self e rest
    have he : e ∈ WeatherUtils.forecastCounts fs := hperm.mem_iff.mp hesort
    have hkeys := nodup_entryKeys_forecastCounts fs
    have hcount : entryCount (WeatherUtils.forecastCounts fs) e.1 = e.2 :=
      entryCount_eq_of_mem _ hkeys e.1 e.2 (by simpa using he)
    have hc2 : (fs.map (fun f => f.forecast)).count e.1 = e.2 := by
      rw [← entryCount_forecastCounts]
      exact hcount
    have hpos : 0 < e.2 := pos_forecastCounts fs e he
    have hsorted := List.sorted_insertionSort WeatherUtils.entryLe
      (WeatherUtils.forecastCounts fs)
    rw [hs] at hsorted
    refine ⟨e.1, e.2, ?_, ?_, hc2.symm, ?_⟩
    · rw [WeatherUtils.getMostCommonForecast, if_neg hlen, if_neg hlen2, hs]
      simp
    · have : 0 < (fs.map (fun f => f.forecast)).count e.1 := by
        rw [hc2]
        exact hpos
      exact List.count_pos_iff.mp this
    · intro t ht
      have htpos : 0 < (fs.map (fun f => f.forecast)).count t :=
        List.count_pos_iff.mpr ht
      have htcount : entryCount (WeatherUtils.forecastCounts fs) t =
          (fs.map (fun f => f.forecast)).count t :=
        entryCount_forecastCounts fs t
      have htmem : (t, (fs.map (fun f => f.forecast)).count t) ∈
          WeatherUtils.forecastCounts fs := by
        have hmem := mem_of_entryCount_pos (WeatherUtils.forecastCounts fs) t
          (by rw [htcount]; exact htpos)
        rwa [htcount] at hmem
      have htsort : (t, (fs.map (fun f => f.forecast)).count t) ∈
          (WeatherUtils.forecastCounts fs).insertionSort
            WeatherUtils.entryLe := hperm.mem_iff.mpr htmem
      rw [hs] at htsort
      rcases List.mem_cons.mp htsort with hq | hq
      · have : (fs.map (fun f => f.forecast)).count t = e.2 :=
          congrArg Prod.snd hq
        exact le_of_eq this
      · exact List.rel_of_sorted_cons hsorted _ hq

/-- `getMostCommonForecast` returns `null` exactly on the empty input. -/
theorem getMostCommonForecast_eq_none_iff (fs : List Forecast) :
    WeatherUtils.getMostCommonForecast fs = none ↔ fs = [] := by
  constructor
  · intro h
    by_contra hne
    obtain ⟨s, n, hsome, -, -, -⟩ := getMostCommonForecast_spec fs hne
    rw [hsome] at h
    cases h
  · rintro rfl
    rfl

/-- C7: `getForecastsByCategory` assigns each forecast to exactly one of the
six categories, the six category counts of `calculateWeatherStatistics` sum
to `totalAreas` (the input length), each percentage is
`count / total * 100` (`0` on an empty input), and `mostCommon` is `null`
exactly on the empty input and otherwise names a forecast string of maximal
occurrence count. -/
theorem c7_statistics_spec (forecasts : List Forecast) :
    (∀ f : Forecast, ∀ c : WeatherCategory,
      f ∈ WeatherUtils.getForecastsByCategory forecasts c ↔
        (f ∈ forecasts ∧
          c = WeatherUtils.categorizeWeatherForecast f.forecast)) ∧
    (WeatherUtils.calculateWeatherStatistics forecasts).totalAreas =
      forecasts.length ∧
    ((WeatherUtils.calculateWeatherStatistics forecasts).categoryStats.map
        (fun e => e.count)).sum =
      (WeatherUtils.calculateWeatherStatistics forecasts).totalAreas ∧
    (∀ e ∈ (WeatherUtils.calculateWeatherStatistics forecasts).categoryStats,
      e.percentage =
        if 0 < forecasts.length then
          (e.count : ℚ) / (forecasts.length : ℚ) * 100
        else 0) ∧
    ((WeatherUtils.calculateWeatherStatistics forecasts).mostCommon = none ↔
      forecasts = []) ∧
    (forecasts ≠ [] →
      ∃ s : String, ∃ n : ℕ,
        (WeatherUtils.calculateWeatherStatistics forecasts).mostCommon =
          some (s, n) ∧
        s ∈ forecasts.map (fun f => f.forecast) ∧
        n = (forecasts.map (fun f => f.forecast)).count s ∧
        ∀ t ∈ forecasts.map (fun f => f.forecast),
          (forecasts.map (fun f => f.forecast)).count t ≤ n) := by
  refine ⟨?_, rfl, ?_, ?_, ?_, ?_⟩
  · intro f c
    constructor
    · intro hmem
      rw [getForecastsByCategory_eq_filter, List.mem_filter] at hmem
      have h2 : WeatherUtils.categorizeWeatherForecast f.forecast = c := by
        simpa using hmem.2
      exact ⟨hmem.1, h2.symm⟩
    · rintro ⟨h1, h2⟩
      rw [getForecastsByCategory_eq_filter, List.mem_filter]
      refine ⟨h1, ?_⟩
      simp [h2]
  · have hsum := sum_bucket_lengths forecasts
    simp only [WeatherUtils.calculateWeatherStatistics,
      WeatherUtils.allCategories, List.map_cons, List.map_nil,
      List.sum_cons, List.sum_nil]
    omega
  · intro e he
    simp only [WeatherUtils.calculateWeatherStatistics,
      WeatherUtils.allCategories, List.map_cons, List.map_nil,
      List.mem_cons, List.not_mem_nil, or_false] at he
    rcases he with rfl | rfl | rfl | rfl | rfl | rfl <;> rfl
  · rw [calculateWeatherStatistics_mostCommon]
    exact getMostCommonForecast_eq_none_iff forecasts
  · intro h
    rw [calculateWeatherStatistics_mostCommon]
    exact getMostCommonForecast_spec forecasts h

/-- C7 witness: instantiation of `c7_statistics_spec` at a concrete
three-element list where `"Cloudy"` occurs twice. -/
theorem c7_statistics_spec_witness :
    ([(⟨"Bedok", "Cloudy"⟩ : Forecast), ⟨"Ang Mo Kio", "Cloudy"⟩,
        ⟨"Changi", "Fair"⟩] ≠ []) ∧
    (∃ s : String, ∃ n : ℕ,
      (WeatherUtils.calculateWeatherStatistics
          [⟨"Bedok", "Cloudy"⟩, ⟨"Ang Mo Kio", "Cloudy"⟩,
            ⟨"Changi", "Fair"⟩]).mostCommon = some (s, n) ∧
      s ∈ [(⟨"Bedok", "Cloudy"⟩ : Forecast), ⟨"Ang Mo Kio", "Cloudy"⟩,
          ⟨"Changi", "Fair"⟩].map (fun f => f.forecast) ∧
      n = ([(⟨"Bedok", "Cloudy"⟩ : Forecast), ⟨"Ang Mo Kio", "Cloudy"⟩,
          ⟨"Changi", "Fair"⟩].map (fun f => f.forecast)).count s ∧
      ∀ t ∈ [(⟨"Bedok", "Cloudy"⟩ : Forecast), ⟨"Ang Mo Kio", "Cloudy"⟩,
          ⟨"Changi", "Fair"⟩].map (fun f => f.forecast),
        ([(⟨"Bedok", "Cloudy"⟩ : Forecast), ⟨"Ang Mo Kio", "Cloudy"⟩,
            ⟨"Changi", "Fair"⟩].map (fun f => f.forecast)).count t ≤ n) ∧
    (WeatherUtils.calculateWeatherStatistics
        [⟨"Bedok", "Cloudy"⟩, ⟨"Ang Mo Kio", "Cloudy"⟩,
          ⟨"Changi", "Fair"⟩]).mostCommon = some ("Cloudy", 2) :=
  ⟨by decide,
   (c7_statistics_spec [⟨"Bedok", "Cloudy"⟩, ⟨"Ang Mo Kio", "Cloudy"⟩,
      ⟨"Changi", "Fair"⟩]).2.2.2.2.2 (by decide),
   by decide⟩

/-! ## Wind direction (`WindDirection.tsx`) and claims C1, C10 -/

/-- JS number truncation toward zero, as used by the `%` operator. -/
noncomputable def rtrunc (x : ℝ) : ℤ :=
  if 0 ≤ x then ⌊x⌋ else ⌈x⌉

/-- The JS `%` operator on numbers: the remainder of truncating division
(`x - y * trunc(x / y)`), in real semantics. -/
noncomputable def jsfmod (x y : ℝ) : ℝ :=
  x - y * rtrunc (x / y)

/-- JS `Math.atan2(y, x)`: the angle of the point `(x, y)` in `(-π, π]`,
by quadrant (signed zeros and NaN are outside the real model). -/
noncomputable def atan2 (y x : ℝ) : ℝ :=
  if 0 < x then Real.arctan (y / x)
  else if x < 0 then
    (if 0 ≤ y then Real.arctan (y / x) + Real.pi
     else Real.arctan (y / x) - Real.pi)
  else
    (if 0 < y then Real.pi / 2
     else if y < 0 then -(Real.pi / 2)
     else 0)

namespace WindDirection

/-- A station reading of the latest wind-direction record
(`{ stationId, value }`, with `value` possibly `null`). -/
structure WindDataPoint where
  stationId : String
  value : Option ℝ

/-- The non-null values of the reading list: the source's
`filter(r => r.value !== null)` followed by the non-null assertions
`r.value!`. -/
def validValues (points : List WindDataPoint) : List ℝ :=
  points.filterMap (fun r => r.value)

/-- Embedding of the circular-mean computation of `WindDirection`:
convert each valid reading to radians, average the sine and cosine vectors,
take `atan2`, convert back to degrees, shift into `[0, 360)` with
`(· + 360) % 360` and round; `0` when there is no valid reading. -/
noncomputable def avgDirection (points : List WindDataPoint) : ℤ :=
  if 0 < (validValues points).length then
    round (jsfmod
      (atan2
          (((validValues points).map (fun v => v * Real.pi / 180)).foldl
              (fun sum rad => sum + Real.sin rad) 0 /
            ((validValues points).length : ℝ))
          (((validValues points).map (fun v => v * Real.pi / 180)).foldl
              (fun sum rad => sum + Real.cos rad) 0 /
            ((validValues points).length : ℝ)) * 180 / Real.pi + 360) 360)
  else 0

/-- The sixteen cardinal directions, in the enum's declaration order. -/
def cardinalDirections : List String :=
  ["N", "NNE", "NE", "ENE", "E", "ESE", "SE", "SSE",
   "S", "SSW", "SW", "WSW", "W", "WNW", "NW", "NNW"]

/-- JS array indexing with a (possibly out-of-range) integer index:
`undefined` when negative or past the end. -/
def jsGet (l : List String) (i : ℤ) : Option String :=
  if 0 ≤ i then l.get? i.toNat else none

/-- Embedding of `getCardinalDirection`:
`directions[Math.round(degrees / 22.5) % 16]`. -/
noncomputable def getCardinalDirection (degrees : ℝ) : Option String :=
  jsGet cardinalDirections ((round (degrees / 22.5)).tmod 16)

end WindDirection

/-- Folding addition of `f` over a list sums the mapped list. -/
theorem foldl_add_map (f : ℝ → ℝ) (l : List ℝ) (init : ℝ) :
    l.foldl (fun sum x => sum + f x) init = init + (l.map f).sum := by
  induction l generalizing init with
  | nil => simp
  | cons a t ih =>
    rw [List.foldl_cons, ih, List.map_cons, List.sum_cons]
    ring

/-- On a non-empty valid-reading list, `avgDirection` is the round of the
shifted degree value of the `atan2` of the mean sine against the mean
cosine of the readings converted to radians. -/
theorem avgDirection_eq_mean_formula (points : List WindDirection.WindDataPoint)
    (h : WindDirection.validValues points ≠ []) :
    WindDirection.avgDirection points =
      round (jsfmod
        (atan2
            (((WindDirection.validValues points).map
                (fun v => Real.sin (v * Real.pi / 180))).sum /
              ((WindDirection.validValues points).length : ℝ))
            (((WindDirection.validValues points).map
                (fun v => Real.cos (v * Real.pi / 180))).sum /
              ((WindDirection.validValues points).length : ℝ)) * 180 /
          Real.pi + 360) 360) := by
  have hlen : 0 < (WindDirection.validValues points).length :=
    List.length_pos.mpr h
  rw [WindDirection.avgDirection, if_pos hlen]
  simp only [foldl_add_map, zero_add, List.map_map, Function.comp]
  rfl

/-- The `atan2` of the point `(1/2, 1/2)` is `π/4`. -/
theorem atan2_half_half : atan2 ((1 : ℝ)/2) ((1 : ℝ)/2) = Real.pi / 4 := by
  rw [atan2, if_pos (by norm_num : (0:ℝ) < 1/2)]
  rw [show ((1:ℝ)/2) / ((1:ℝ)/2) = 1 by norm_num]
  exact Real.arctan_one

/-- The JS remainder of `405` by `360` is `45`. -/
theorem jsfmod_405_360 : jsfmod (405 : ℝ) 360 = 45 := by
  rw [jsfmod, rtrunc, if_pos (by norm_num : (0:ℝ) ≤ 405/360)]
  have hfloor : ⌊(405 : ℝ)/360⌋ = 1 := by
    rw [Int.floor_eq_iff]
    constructor <;> norm_num
  rw [hfloor]
  norm_num

/-- The circular mean of the readings 0° and 90° is exactly 45°. -/
theorem avgDirection_concrete :
    WindDirection.avgDirection [⟨"S1", some 0⟩, ⟨"S2", some 90⟩] = 45 := by
  have h : WindDirection.validValues [⟨"S1", some 0⟩, ⟨"S2", some 90⟩] =
      [(0 : ℝ), 90] := rfl
  have e0 : (0 : ℝ) * Real.pi / 180 = 0 := by ring
  have e90 : (90 : ℝ) * Real.pi / 180 = Real.pi / 2 := by ring
  have hs : (([(0 : ℝ), 90]).map
      (fun v => Real.sin (v * Real.pi / 180))).sum = 1 := by
    simp [e0, e90]
  have hc : (([(0 : ℝ), 90]).map
      (fun v => Real.cos (v * Real.pi / 180))).sum = 1 := by
    simp [e0, e90]
  have hlen : (([(0 : ℝ), 90]).length : ℝ) = 2 := by norm_num
  rw [avgDirection_eq_mean_formula _ (by rw [h]; simp), h, hs, hc, hlen]
  have hdeg : atan2 ((1:ℝ)/2) ((1:ℝ)/2) * 180 / Real.pi + 360 = 405 := by
    rw [atan2_half_half]
    field_simp
    ring
  rw [show (1:ℝ)/2 = 1/2 from rfl] at hdeg
  rw [hdeg, jsfmod_405_360]
  rw [show (45:ℝ) = ((45:ℤ):ℝ) by norm_num, round_intCast]

/-- C1: on every reading list with at least one non-null value,
`avgDirection` equals the round of
`((atan2(mean of sines, mean of cosines) * 180 / π) + 360) % 360` over the
readings converted to radians; in particular the circular mean of the two
readings 0° and 90° is (exactly) 45°. -/
theorem c1_circular_mean_spec (points : List WindDirection.WindDataPoint) :
    (WindDirection.validValues points ≠ [] →
      WindDirection.avgDirection points =
        round (jsfmod
          (atan2
              (((WindDirection.validValues points).map
                  (fun v => Real.sin (v * Real.pi / 180))).sum /
                ((WindDirection.validValues points).length : ℝ))
              (((WindDirection.validValues points).map
                  (fun v => Real.cos (v * Real.pi / 180))).sum /
                ((WindDirection.validValues points).length : ℝ)) * 180 /
            Real.pi + 360) 360)) ∧
    WindDirection.avgDirection [⟨"S1", some 0⟩, ⟨"S2", some 90⟩] = 45 :=
  ⟨avgDirection_eq_mean_formula points, avgDirection_concrete⟩

/-- C1 witness: instantiation of `c1_circular_mean_spec` at the two readings
0° and 90°, whose valid-value list is non-empty. -/
theorem c1_circular_mean_spec_witness :
    WindDirection.validValues [⟨"S1", some 0⟩, ⟨"S2", some 90⟩] ≠ [] ∧
    WindDirection.avgDirection [⟨"S1", some 0⟩, ⟨"S2", some 90⟩] =
      round (jsfmod
        (atan2
            (((WindDirection.validValues
                [⟨"S1", some 0⟩, ⟨"S2", some 90⟩]).map
                (fun v => Real.sin (v * Real.pi / 180))).sum /
              ((WindDirection.validValues
                [⟨"S1", some 0⟩, ⟨"S2", some 90⟩]).length : ℝ))
            (((WindDirection.validValues
                [⟨"S1", some 0⟩, ⟨"S2", some 90⟩]).map
                (fun v => Real.cos (v * Real.pi / 180))).sum /
              ((WindDirection.validValues
                [⟨"S1", some 0⟩, ⟨"S2", some 90⟩]).length : ℝ)) * 180 /
          Real.pi + 360) 360) :=
  ⟨by
    rw [show WindDirection.validValues [⟨"S1", some 0⟩, ⟨"S2", some 90⟩] =
      [(0 : ℝ), 90] from rfl]
    exact List.cons_ne_nil _ _,
   (c1_circular_mean_spec [⟨"S1", some 0⟩, ⟨"S2", some 90⟩]).1
    (by
      rw [show WindDirection.validValues [⟨"S1", some 0⟩, ⟨"S2", some 90⟩] =
        [(0 : ℝ), 90] from rfl]
      exact List.cons_ne_nil _ _)⟩

/-- C10: for every non-negative degree value, the index
`Math.round(degrees / 22.5) % 16` lies in `[0, 16)`, so
`getCardinalDirection` totally returns one of the sixteen cardinal-direction
strings. -/
theorem c10_cardinal_direction_total (degrees : ℝ) (h : 0 ≤ degrees) :
    0 ≤ (round (degrees / 22.5)).tmod 16 ∧
    (round (degrees / 22.5)).tmod 16 < 16 ∧
    ∃ s : String, WindDirection.getCardinalDirection degrees = some s ∧
      s ∈ WindDirection.cardinalDirections := by
  have hq : (0 : ℝ) ≤ degrees / 22.5 := div_nonneg h (by norm_num)
  have hr : 0 ≤ round (degrees / 22.5) := by
    rw [round_eq]
    exact Int.floor_nonneg.mpr (by linarith)
  have htm : (round (degrees / 22.5)).tmod 16 =
      (round (degrees / 22.5)) % 16 :=
    Int.tmod_eq_emod hr (by norm_num)
  have h0 : 0 ≤ (round (degrees / 22.5)).tmod 16 := by
    rw [htm]
    exact Int.emod_nonneg _ (by norm_num)
  have h16 : (round (degrees / 22.5)).tmod 16 < 16 := by
    rw [htm]
    exact Int.emod_lt_of_pos _ (by norm_num)
  refine ⟨h0, h16, ?_⟩
  have hnat : ((round (degrees / 22.5)).tmod 16).toNat <
      WindDirection.cardinalDirections.length := by
    have hlt : ((round (degrees / 22.5)).tmod 16).toNat < 16 := by omega
    simpa [WindDirection.cardinalDirections] using hlt
  refine ⟨WindDirection.cardinalDirections.get ⟨_, hnat⟩, ?_,
    List.get_mem _ _ _⟩
  rw [WindDirection.getCardinalDirection, WindDirection.jsGet, if_pos h0]
  exact List.get?_eq_get hnat

/-- C10 witness: instantiation of `c10_cardinal_direction_total` at 45°. -/
theorem c10_cardinal_direction_total_witness :
    (0 : ℝ) ≤ 45 ∧
    (0 ≤ (round ((45 : ℝ) / 22.5)).tmod 16 ∧
     (round ((45 : ℝ) / 22.5)).tmod 16 < 16 ∧
     ∃ s : String, WindDirection.getCardinalDirection 45 = some s ∧
       s ∈ WindDirection.cardinalDirections) :=
  ⟨by norm_num, c10_cardinal_direction_total 45 (by norm_num)⟩
